import Mathlib

/-!
# Verification of `present/markdown.py`

Shallow embedding of the slide-deck builder in `src/present/markdown.py`:
the element variants (Heading, Text, List, BlockCode, Codio, Image,
BlockHtml), the Codio engine (width / size / frame generation), slide
assembly with style validation, and the AST-to-element adapter inside
`Markdown.parse`.

Modelling conventions:
* Python `str` is `String`; machine integers do not occur (all counts are
  naturals, and Python `int(x / k)` on non-negative values is `Nat` division).
* The free-form AST node dict is the inductive `AstNode`; a key that holds
  a string which may be absent (`"text"`) is an `Option String`, keys that
  the code reads with defaults or that are list-valued are plain fields.
* Fallible code returns `Except PErr` / `Option`.
* External collaborators (pyfiglet, the effect/color registries from
  `present.effects`, the file system, the YAML codio loader, terminal
  dimensions) are parameters (`Ctx`, `Env`), per spec section 6.
* `int(0.6 * width)` in the progress-frame branch is modelled as exact
  rational arithmetic `6 * width / 10`; no verified claim depends on the
  float rounding of that one expression.
-/

namespace Present

/-! ## String helpers (Python semantics) -/

/-- Number of `" "` occurrences in a string: Python `s.count(" ")`. -/
def spaceCount (s : String) : Nat :=
  s.data.countP (fun c => c = ' ')

/-- A run of `n` spaces. -/
def spaces (n : Nat) : String :=
  String.mk (List.replicate n ' ')

/-- Python `s.ljust(n, " ")`: pad on the right with spaces up to width `n`. -/
def ljust (s : String) (n : Nat) : String :=
  s ++ String.mk (List.replicate (n - s.length) ' ')

/-- Python `s * n` for strings: `n` copies concatenated. -/
def repeatStr (s : String) (n : Nat) : String :=
  String.join (List.replicate n s)

/-- Helper for `splitlines`: split a character list at each newline.
The terminal-newline case mirrors Python, which emits no empty final line
for a string that ends in `"\n"`. -/
def splitlinesAux : List Char → List Char → List (List Char)
  | cur, [] => [cur.reverse]
  | cur, '\n' :: [] => [cur.reverse]
  | cur, '\n' :: rest => cur.reverse :: splitlinesAux [] rest
  | cur, c :: rest => splitlinesAux (c :: cur) rest

/-- Python `s.splitlines()` (with `"\n"` as the only line break, the break
the code under verification produces and consumes). -/
def splitlines (s : String) : List String :=
  match s.data with
  | [] => []
  | cs => (splitlinesAux [] cs).map String.mk

/-- Python `"\n".join(rows)`. -/
def joinNL : List String → String
  | [] => ""
  | [x] => x
  | x :: xs => x ++ "\n" ++ joinNL xs

/-- One step of Python `str.title()`: an alphabetic character is uppercased
when the previous character was not alphabetic and lowercased otherwise. -/
def titlecaseAux : Bool → List Char → List Char
  | _, [] => []
  | prevCased, c :: cs =>
    let cased := c.isAlpha
    let c' := if cased then (if prevCased then c.toLower else c.toUpper) else c
    c' :: titlecaseAux cased cs

/-- Python `s.title()`. -/
def titlecase (s : String) : String :=
  String.mk (titlecaseAux false s.data)

/-- `obj["type"].title().replace("_", "")`: the element-class name the
adapter in `Markdown.parse` derives from an AST type tag. -/
def transformKind (tag : String) : String :=
  String.mk (((titlecase tag).data).filter (fun c => c ≠ '_'))

/-! ## Codio data model (spec section 4.6; `Codio` in the source) -/

/-- One record of a codio script (`lines` entries of the YAML file):
optional prompt/input/output text, styling, and the progress flag.
A key absent from the YAML mapping is the default value; for
`color` / `bold` / `underline` the code forwards `line.get(k)` (i.e. `None`
when absent), hence `Option`.  `progress` is read as
`l.get("progress") is not None and l["progress"]`, which is a plain
boolean that is `false` when the key is absent. -/
structure CodioLine where
  prompt : String := ""
  inp : String := ""
  out : String := ""
  color : Option String := none
  bold : Option Bool := none
  underline : Option Bool := none
  progress : Bool := false
  progressChar : Option String := none
  deriving DecidableEq

/-- A parsed codio script: playback speed and the ordered lines. -/
structure CodioScript where
  speed : Nat := 1
  lines : List CodioLine := []
  deriving DecidableEq

/-- One playback frame produced by `Codio.render`.  `styled` records
whether the frame dict carries the `color` / `bold` / `underline` keys
(progress-bar frames do not). -/
structure Frame where
  prompt : String
  inp : String
  out : String
  color : Option String := none
  bold : Option Bool := none
  underline : Option Bool := none
  styled : Bool
  deriving DecidableEq

/-- The `_magic_width` of one line in `Codio.width`: a quarter of the
terminal width (`tw4 = int(terminal_width / 4)`) if the progress flag is
set, else `0`. -/
def magicWidth (tw4 : Nat) (l : CodioLine) : Nat :=
  if l.progress then tw4 else 0

/-- The candidate width one `CodioLine` contributes in `Codio.width`:
the maximum of the magic width, the prompt length, and the input/output
lengths each augmented by their space count. -/
def lineCandidate (tw4 : Nat) (l : CodioLine) : Nat :=
  max (max (magicWidth tw4 l) l.prompt.length)
      (max (l.inp.length + spaceCount l.inp) (l.out.length + spaceCount l.out))

/-- `Codio.width` (source lines 118-141), transcribed: fold the running
maximum of `_magic_width`, `len(prompt)`, `len(in) + in.count(" ")`,
`len(out) + out.count(" ")` over the lines, starting from `0`, then add
the fixed padding of `4`.  `tw` is the terminal column count queried from
the environment. -/
def Codio.width (tw : Nat) (s : CodioScript) : Nat :=
  (s.lines.foldl
    (fun w l =>
      max (max (max (max w (magicWidth (tw / 4) l)) l.prompt.length)
               (l.inp.length + spaceCount l.inp))
          (l.out.length + spaceCount l.out))
    0) + 4

/-- `Codio.size` (source lines 143-153), transcribed: the number of lines,
plus one for each line whose `in` and `out` are both non-empty (Python
truthiness of the two strings), plus `2`. -/
def Codio.size (s : CodioScript) : Nat :=
  (s.lines.foldl
    (fun n l => if l.inp ≠ "" ∧ l.out ≠ "" then n + 1 else n)
    s.lines.length) + 2

/-- The per-line step of `Codio.render` (source lines 155-191): a progress
line yields an unstyled progress-bar frame; a line with prompt, input and
output all empty yields no frame; a line with only a prompt yields a frame
whose output is the prompt and whose prompt is cleared; any other line is
forwarded as is, with its styling. -/
def renderFrame (w : Nat) (l : CodioLine) : Option Frame :=
  if l.progress then
    some { prompt := ""
           inp := repeatStr (l.progressChar.getD "█") (6 * w / 10)
           out := ""
           styled := false }
  else if l.prompt = "" ∧ l.inp = "" ∧ l.out = "" then
    none
  else if l.prompt ≠ "" ∧ l.inp = "" ∧ l.out = "" then
    some { prompt := ""
           inp := l.inp
           out := l.prompt
           color := l.color
           bold := l.bold
           underline := l.underline
           styled := true }
  else
    some { prompt := l.prompt
           inp := l.inp
           out := l.out
           color := l.color
           bold := l.bold
           underline := l.underline
           styled := true }

/-- `Codio.render`: the frame list, each line contributing through
`renderFrame` at the session width. -/
def Codio.render (tw : Nat) (s : CodioScript) : List Frame :=
  s.lines.filterMap (renderFrame (Codio.width tw s))

/-! ## BlockCode (spec section 4.5; `BlockCode` in the source)

`size` and `pad`/`render` are functions of the stored `obj["text"]`, so
they are stated over that string directly. -/

namespace BlockCode

/-- The row list of `BlockCode.pad` (source lines 88-99): `none` when the
text has no lines, because Python `max()` over the empty sequence of line
lengths raises.  Otherwise: a blank border row of width `max_len + 2`, the
source lines left-justified to `max_len + 1` and prefixed with one space,
and the same border row again. -/
def padRows (s : String) : Option (List String) :=
  match splitlines s with
  | [] => none
  | l :: ls =>
    let maxLen := ls.foldl (fun m x => max m x.length) l.length
    some (spaces (maxLen + 2)
          :: ((l :: ls).map (fun x => " " ++ ljust x (maxLen + 1))
              ++ [spaces (maxLen + 2)]))

/-- `BlockCode.pad`: the rows joined with newlines. -/
def pad (s : String) : Option String :=
  (padRows s).map joinNL

/-- `BlockCode.size` (source lines 101-103): the number of source lines of
the stored text — the border rows are not counted. -/
def size (s : String) : Nat :=
  (splitlines s).length

/-- `BlockCode.render` (source lines 105-106). -/
def render (s : String) : Option String :=
  pad s

end BlockCode

/-! ## AST nodes and elements -/

/-- A generic parsed markdown AST node (spec section 3): a type tag,
optional leaf text, nested children, and the attributes the code reads
(`level` for headings, `src` / `alt` for images).  String- and list-valued
keys the code reads with defaults are plain fields; the `"text"` key,
whose absence the code observes (`child.get("text") is not None`, and
`KeyError` on direct indexing), is an `Option`. -/
inductive AstNode : Type where
  | mk (ntype : String) (text : Option String) (level : Nat)
       (children : List AstNode) (src : String) (alt : String) : AstNode

/-- The `"type"` tag of a node. -/
def AstNode.ntype : AstNode → String
  | .mk t _ _ _ _ _ => t

/-- The `"text"` entry of a node, `none` when the key is absent. -/
def AstNode.text : AstNode → Option String
  | .mk _ x _ _ _ _ => x

/-- The heading `"level"` attribute. -/
def AstNode.level : AstNode → Nat
  | .mk _ _ l _ _ _ => l

/-- The `"children"` list of a node. -/
def AstNode.children : AstNode → List AstNode
  | .mk _ _ _ c _ _ => c

/-- The image `"src"` attribute. -/
def AstNode.src : AstNode → String
  | .mk _ _ _ _ s _ => s

/-- The image `"alt"` attribute. -/
def AstNode.alt : AstNode → String
  | .mk _ _ _ _ _ a => a

/-- The element union (spec section 3).  Each variant owns the AST
fragment it was built from; a `Codio` built from a parsed YAML script owns
the script (`codio`), while a `Codio` accidentally built by the adapter
from a top-level AST node whose tag is `"codio"` owns that node
(`codioNode`) — in Python both are the one `Codio` dataclass, whose `obj`
is whatever dict it was given. -/
inductive Element : Type where
  | heading (obj : AstNode)
  | text (obj : AstNode)
  | list (obj : AstNode)
  | blockCode (obj : AstNode)
  | codio (script : CodioScript)
  | codioNode (obj : AstNode)
  | image (obj : AstNode)
  | blockHtml (obj : AstNode)

/-- The `type` field of each element dataclass (`"heading"`, `"text"`,
`"list"`, `"code"`, `"codio"`, `"image"`, `"html"`), the string
`Slide.__init__` dispatches on. -/
def Element.type : Element → String
  | .heading _ => "heading"
  | .text _ => "text"
  | .list _ => "list"
  | .blockCode _ => "code"
  | .codio _ => "codio"
  | .codioNode _ => "codio"
  | .image _ => "image"
  | .blockHtml _ => "html"

/-! ## Errors raised during the load pass (spec section 7) -/

/-- The typed failure surface.  The source raises `ValueError` (with the
messages transcribed in the constructor comments), `KeyError` /
`IndexError` / `TypeError` from dict and call misuse, `FileNotFoundError`,
and `NotImplementedError`. -/
inductive PErr : Type where
  /-- The `ValueError` whose message reads: (Slide n) Kind is not supported —
  the `UnsupportedElementKind` error, carrying the transformed kind name
  and the 1-based index n of the slide being accumulated. -/
  | unsupportedElement (name : String) (slide : Nat)
  /-- `TypeError`: the tag resolved (via `eval`) to a module-level or
  builtin name that is not an element class, and calling it with the
  `obj=` keyword failed; not caught by the `except NameError` handler. -/
  | typeError (name : String)
  /-- `FileNotFoundError` for a missing image or codio script file. -/
  | fileNotFound (src : String)
  /-- `KeyError` on a missing dict key. -/
  | keyError (key : String)
  /-- `IndexError` on `children[0]` of a childless node. -/
  | indexError
  /-- The `ValueError` whose message reads: Effect name is not supported. -/
  | unsupportedEffect (name : String)
  /-- The `ValueError` whose message reads: Color name is not supported. -/
  | unsupportedColor (name : String)
  /-- The `ValueError` whose message reads: Effects and colors on the same
  slide are not supported. -/
  | incompatibleStyleColor
  /-- The `ValueError` whose message reads: Effects and code on the same
  slide are not supported. -/
  | incompatibleStyleCode
  /-- `NotImplementedError` (Image/BlockHtml render, BlockHtml size). -/
  | notImplemented
  deriving DecidableEq

/-- Whether an error is one of the two `IncompatibleStyle` construction
failures. -/
def PErr.isIncompatibleStyle : PErr → Bool
  | .incompatibleStyleColor => true
  | .incompatibleStyleCode => true
  | _ => false

/-! ## Style parsing: re.findall of the pattern ((\w+)=(\w+)) -/

/-- Python `\w` on the ASCII range: letters, digits, underscore. -/
def isWordChar (c : Char) : Bool :=
  c.isAlphanum || c = '_'

/-- Fuel-indexed scan equivalent to re.findall of ((\w+)=(\w+)) over s:
matches are maximal word runs separated by a single `=`; on failure the
scan resumes after the word run (regex leftmost matching with greedy
`\w+`).  The fuel argument only makes the structural recursion evident;
each step strictly shortens the character list, so `cs.length` fuel always
suffices. -/
def findPairsFuel : Nat → List Char → List (String × String)
  | 0, _ => []
  | _ + 1, [] => []
  | fuel + 1, c :: cs =>
    if isWordChar c then
      let w1 := c :: cs.takeWhile isWordChar
      let rest := cs.dropWhile isWordChar
      match rest with
      | '=' :: r2 =>
        let w2 := r2.takeWhile isWordChar
        if w2.isEmpty then findPairsFuel fuel rest
        else (String.mk w1, String.mk w2) :: findPairsFuel fuel (r2.dropWhile isWordChar)
      | _ => findPairsFuel fuel rest
    else findPairsFuel fuel cs

/-- `BlockHtml.style` (source lines 220-223): the `key=value` pairs found
in the raw HTML text, in match order.  The dict comprehension over the
matches keeps the last value per key, which `dictGet` reproduces. -/
def parseStyle (s : String) : List (String × String) :=
  findPairsFuel s.data.length s.data

/-- Python dict lookup (`d.get(k)`) on a key/value list where a later pair
with the same key overwrites an earlier one. -/
def dictGet (d : List (String × String)) (k : String) : Option String :=
  d.foldl (fun acc p => if p.1 = k then some p.2 else acc) none

/-! ## External collaborators -/

/-- The fixed external registries and the file system as seen during one
load pass (spec sections 1 and 6): the `EFFECTS` name list and `COLORMAP`
name-to-index table from `present.effects`, `os.path.exists`, and the
codio YAML loader (`none` both for a missing file and an unreadable one). -/
structure Env where
  effects : List String
  colormap : String → Option Nat
  fileExists : String → Bool
  readCodio : String → Option CodioScript

/-- The terminal environment an element queries while sizing/rendering:
`shutil.get_terminal_size()` and the pyfiglet banner generator
(both external collaborators, spec section 6). -/
structure Ctx where
  termWidth : Nat := 80
  termHeight : Nat := 24
  figlet : String → String

/-! ## Slide assembly (`Slide.__init__`, source lines 229-288) -/

/-- A constructed slide: the element list plus the derived, validated
style state, mirroring the attributes set by `Slide.__init__`. -/
structure Slide where
  elements : List Element
  has_style : Bool
  has_effect : Bool
  has_image : Bool
  has_code : Bool
  has_codio : Bool
  style : List (String × String)
  effect : Option String
  fg_color : Nat
  bg_color : Nat

/-- One step of the element scan of `Slide.__init__` (source lines
246-259): accumulates `has_style` / `style` (the parsed style of an html
element, a later one overwriting an earlier one) and the `has_image` /
`has_code` / `has_codio` flags.  Reading `e.style` on an html element
whose dict lacks `"text"` raises `KeyError`. -/
def scanStep (st : Bool × List (String × String) × Bool × Bool × Bool)
    (e : Element) :
    Except PErr (Bool × List (String × String) × Bool × Bool × Bool) :=
  let (hs, sty, hi, hc, hco) := st
  match e with
  | .blockHtml n =>
    match n.text with
    | none => .error (.keyError "text")
    | some t => .ok (true, parseStyle t, hi, hc, hco)
  | .image _ => .ok (hs, sty, true, hc, hco)
  | .blockCode _ => .ok (hs, sty, hi, true, hco)
  | .codio _ => .ok (hs, sty, hi, hc, true)
  | .codioNode _ => .ok (hs, sty, hi, hc, true)
  | _ => .ok (hs, sty, hi, hc, hco)

/-- The element scan of `Slide.__init__` as one fold of `scanStep` over the
elements, starting from the all-defaults state. -/
def scanElems (elements : List Element) :
    Except PErr (Bool × List (String × String) × Bool × Bool × Bool) :=
  elements.foldlM scanStep (false, [], false, false, false)

/-- The effect lookup of `Slide.__init__` (source lines 263-267): a style
`effect` name absent from the `EFFECTS` registry is an error; a present
one sets `has_effect` and is recorded. -/
def resolveEffect (env : Env) (style : List (String × String)) :
    Except PErr (Bool × Option String) :=
  match dictGet style "effect" with
  | none => .ok (false, none)
  | some eff =>
    if eff ∈ env.effects then .ok (true, some eff)
    else .error (.unsupportedEffect eff)

/-- The color lookups of `Slide.__init__` (source lines 269-279): a style
color name is resolved through `COLORMAP`, a missing name is an error, an
absent key keeps the default index. -/
def resolveColor (env : Env) (style : List (String × String))
    (key : String) (dflt : Nat) : Except PErr Nat :=
  match dictGet style key with
  | none => .ok dflt
  | some c =>
    match env.colormap c with
    | some v => .ok v
    | none => .error (.unsupportedColor c)

/-- `Slide.__init__` (source lines 229-288): scan the elements, resolve
the effect and the colors (defaults `fg = 0`, `bg = 7`), reject an active
effect combined with an explicit color or with a code block, and force
`fg, bg = 7, 0` when an effect is active. -/
def mkSlide (env : Env) (elements : List Element) : Except PErr Slide :=
  match scanElems elements with
  | .error e => .error e
  | .ok (has_style, style, has_image, has_code, has_codio) =>
    match resolveEffect env style with
    | .error e => .error e
    | .ok (has_effect, effect) =>
      match resolveColor env style "fg" 0 with
      | .error e => .error e
      | .ok fg =>
        match resolveColor env style "bg" 7 with
        | .error e => .error e
        | .ok bg =>
          if has_effect && ((dictGet style "fg").isSome || (dictGet style "bg").isSome) then
            .error .incompatibleStyleColor
          else if has_effect && has_code then
            .error .incompatibleStyleCode
          else
            .ok { elements := elements
                  has_style := has_style
                  has_effect := has_effect
                  has_image := has_image
                  has_code := has_code
                  has_codio := has_codio
                  style := style
                  effect := effect
                  fg_color := if has_effect then 7 else fg
                  bg_color := if has_effect then 0 else bg }

/-! ## The AST adapter inside `Markdown.parse` (source lines 314-337)

The source resolves `obj["type"].title().replace("_", "")` with `eval`
and calls the result with `obj=node`.  `eval` succeeds exactly when the
transformed tag names a binding visible in the module: one of the seven
element classes, another module-level name whose shape the transform can
produce (`Slide`, `Markdown`, `Figlet`), or a capitalized Python builtin
(`True`, `ValueError`, `OSError`, ...).  Only a
failed lookup (`NameError`) is converted to the "is not supported"
`ValueError`; a successful lookup of a non-element raises `TypeError` at
the call instead. -/

/-- Names visible to `eval` in the module that are not element classes but
that `title()`-transformed tags can hit: the module-level `Slide`,
`Markdown` and `Figlet`, and every Python builtin whose name starts with
an uppercase letter.  Because the transform removes underscores after
title-casing, a tag can split a name at arbitrary letters (the tag
o_s_error transforms to OSError), so every capitalized builtin is
reachable, not only those spelled as whole title-case words.  The list is
conservative: it also carries the capitalized builtins that exist only on
some Python versions or platforms (the exception-group pair, the
finalization error, the Windows alias of `OSError`); a transformed tag
that hits one of those names is simply outside what the adapter theorem
asserts. -/
def resolvableNonElementNames : List String :=
  ["Slide", "Markdown", "Figlet",
   "True", "False", "None", "NotImplemented", "Ellipsis",
   "BaseException", "BaseExceptionGroup", "Exception", "ExceptionGroup",
   "ArithmeticError", "AssertionError",
   "AttributeError", "BlockingIOError", "BrokenPipeError", "BufferError",
   "BytesWarning",
   "ChildProcessError", "ConnectionAbortedError", "ConnectionError",
   "ConnectionRefusedError", "ConnectionResetError", "DeprecationWarning",
   "EOFError", "EncodingWarning", "EnvironmentError", "FileExistsError",
   "FileNotFoundError", "FloatingPointError", "FutureWarning",
   "GeneratorExit", "IOError", "ImportError", "ImportWarning",
   "IndentationError",
   "IndexError", "InterruptedError", "IsADirectoryError", "KeyError",
   "KeyboardInterrupt", "LookupError", "MemoryError",
   "ModuleNotFoundError", "NameError", "NotADirectoryError",
   "NotImplementedError", "OSError", "OverflowError",
   "PendingDeprecationWarning",
   "PermissionError", "ProcessLookupError", "PythonFinalizationError",
   "RecursionError",
   "ReferenceError", "ResourceWarning", "RuntimeError", "RuntimeWarning",
   "StopAsyncIteration", "StopIteration", "SyntaxError", "SyntaxWarning",
   "SystemError", "SystemExit", "TabError", "TimeoutError", "TypeError",
   "UnboundLocalError", "UnicodeDecodeError", "UnicodeEncodeError",
   "UnicodeError", "UnicodeTranslateError", "UnicodeWarning",
   "UserWarning", "ValueError", "Warning", "WindowsError",
   "ZeroDivisionError"]

/-- Dispatch of one non-paragraph, non-break, non-newline AST node
(source lines 330-337): transform the tag, construct the matching element
class; `Image.__init__` checks that the source path exists; a tag that
resolves to a non-element name fails with `TypeError`; an unresolved name
fails with the unsupported-element `ValueError` naming the transformed
kind and the 1-based slide index. -/
def dispatchTop (env : Env) (sliden : Nat) (node : AstNode) : Except PErr Element :=
  let name := transformKind node.ntype
  if name = "Heading" then .ok (.heading node)
  else if name = "Text" then .ok (.text node)
  else if name = "List" then .ok (.list node)
  else if name = "BlockCode" then .ok (.blockCode node)
  else if name = "Codio" then .ok (.codioNode node)
  else if name = "Image" then
    (if env.fileExists node.src then .ok (.image node)
     else .error (.fileNotFound node.src))
  else if name = "BlockHtml" then .ok (.blockHtml node)
  else if name ∈ resolvableNonElementNames then .error (.typeError name)
  else .error (.unsupportedElement name (sliden + 1))

/-- Dispatch of one inline child of a paragraph (source lines 315-329):
an image child whose alt text is the literal `"codio"` loads and parses
the referenced script and builds a `Codio` element; every other child goes
through the same tag dispatch as a top-level node. -/
def dispatchChild (env : Env) (sliden : Nat) (child : AstNode) : Except PErr Element :=
  if child.ntype = "image" ∧ child.alt = "codio" then
    match env.readCodio child.src with
    | some script => .ok (.codio script)
    | none => .error (.fileNotFound child.src)
  else dispatchTop env sliden child

/-! ## `Markdown.parse` (source lines 298-343) -/

/-- The body of the `for i, obj in enumerate(ast)` loop of
`Markdown.parse`, with the loop state (`i`, `sliden`, `buffer`, `slides`)
passed explicitly; `total` is `len(ast)`.  A `"newline"` node is skipped;
a `"thematic_break"` node with a non-empty buffer flushes the buffer into
a new `Slide` and resets it (and `continue`s, skipping the last-node
check); any other node is adapted — a `"paragraph"` through its children —
into elements appended to the buffer; after processing the node at index
`len(ast) - 1` the buffer is flushed into a trailing `Slide`. -/
def parseGo (env : Env) :
    List AstNode → Nat → Nat → Nat → List Element → List Slide →
    Except PErr (List Slide)
  | [], _, _, _, _, slides => .ok slides
  | obj :: rest, i, total, sliden, buffer, slides =>
    if obj.ntype = "newline" then
      parseGo env rest (i + 1) total sliden buffer slides
    else if obj.ntype = "thematic_break" ∧ buffer.isEmpty = false then
      match mkSlide env buffer with
      | .error e => .error e
      | .ok s => parseGo env rest (i + 1) total (sliden + 1) [] (slides ++ [s])
    else
      match (if obj.ntype = "paragraph"
             then obj.children.mapM (dispatchChild env sliden)
             else (dispatchTop env sliden obj).map (fun e => [e])) with
      | .error e => .error e
      | .ok es =>
        if i = total - 1 then
          match mkSlide env (buffer ++ es) with
          | .error e => .error e
          | .ok s =>
            parseGo env rest (i + 1) total (sliden + 1) (buffer ++ es) (slides ++ [s])
        else
          parseGo env rest (i + 1) total sliden (buffer ++ es) slides

/-- `Markdown.parse` over the AST produced by the external tokenizer. -/
def parse (env : Env) (ast : List AstNode) : Except PErr (List Slide) :=
  parseGo env ast 0 ast.length 0 [] []

/-! ## Element sizes (`size` of each variant) -/

/-- `List.walk` (source lines 62-72): depth-first, pre-order walk of the
nested children; every child carrying leaf text contributes one line
`"  " * level + "• " + text`, and each child is then walked one level
deeper.  (The guard `if "children" in obj` in the source is always true
when the loop body runs, since the loop iterates `obj["children"]`.) -/
def walk (n : AstNode) (level : Nat) : List String :=
  (n.children.attach.map
    (fun c =>
      (match c.1.text with
       | some t => [String.mk (List.replicate (2 * level) ' ') ++ "• " ++ t]
       | none => []) ++ walk c.1 (level + 1))).flatten
termination_by sizeOf n
decreasing_by
  have h1 : sizeOf c.1 < sizeOf n.children := List.sizeOf_lt_of_mem c.2
  cases n with
  | mk t x l ch s a =>
    simp only [AstNode.children] at h1
    simp only [AstNode.mk.sizeOf_spec]
    omega

/-- `Heading.size` (source lines 21-30): a level-1 heading is the line
count of the external figlet banner of the text of the first child (failing
when the children or the text key are missing, as the dict indexing
does); a level-2 heading is 2; anything else is 1. -/
def headingSize (ctx : Ctx) (n : AstNode) : Except PErr Nat :=
  if n.level = 1 then
    match n.children with
    | [] => .error .indexError
    | c :: _ =>
      match c.text with
      | none => .error (.keyError "text")
      | some t => .ok (splitlines (ctx.figlet t)).length
  else if n.level = 2 then .ok 2
  else .ok 1

/-- `size` of every element variant, as the renderer would call it:
`Text.size` is 1; `List.size` counts the walk lines; `BlockCode.size`
counts the source lines of the stored text (`KeyError` when the key is
missing); `Codio.size` is the codio footprint; a `Codio` built from a raw
AST node fails on the missing `"lines"` key; `Image.size` is half the
terminal height; `BlockHtml.size` raises `NotImplementedError`
(source lines 216-218). -/
def sizeE (ctx : Ctx) : Element → Except PErr Nat
  | .heading n => headingSize ctx n
  | .text _ => .ok 1
  | .list n => .ok (walk n 0).length
  | .blockCode n =>
    match n.text with
    | none => .error (.keyError "text")
    | some t => .ok (BlockCode.size t)
  | .codio s => .ok (Codio.size s)
  | .codioNode _ => .error (.keyError "lines")
  | .image _ => .ok (ctx.termHeight / 2)
  | .blockHtml _ => .error .notImplemented

/-! ## Spec-side characterizations

These definitions restate, in the words of the spec, quantities the code
computes by folding; the theorems below connect them to the transcribed
code. -/

/-- Whether an element list contains a style (html) element. -/
def hasStyleB (elements : List Element) : Bool :=
  elements.any (fun e => e.type == "html")

/-- Whether an element list contains an image element. -/
def hasImageB (elements : List Element) : Bool :=
  elements.any (fun e => e.type == "image")

/-- Whether an element list contains a code-block element. -/
def hasCodeB (elements : List Element) : Bool :=
  elements.any (fun e => e.type == "code")

/-- Whether an element list contains a codio element. -/
def hasCodioB (elements : List Element) : Bool :=
  elements.any (fun e => e.type == "codio")

/-- The style dict a slide ends up with: the parsed style of the last html
element of the list (the empty dict when there is none).  A missing text
key is read as the empty string here; the theorems that use `styleB`
assume every html element carries its text, the case in which
`Slide.__init__` does not raise. -/
def styleB (elements : List Element) : List (String × String) :=
  elements.foldl
    (fun st e =>
      match e with
      | .blockHtml n => parseStyle (n.text.getD "")
      | _ => st)
    []

/-- Whether slide construction failed with one of the two
`IncompatibleStyle` errors. -/
def isIncompatibleFailure (r : Except PErr Slide) : Bool :=
  match r with
  | .error e => e.isIncompatibleStyle
  | .ok _ => false

/-- The shape a heading fragment needs for the level-1 banner sizing to
succeed: a first child carrying leaf text. -/
def headingShape (n : AstNode) : Bool :=
  match n.children with
  | [] => false
  | c :: _ => c.text.isSome

/-! ## Concrete sample values

Used by the closed counterexample and witness theorems below. -/

/-- An environment with empty registries and an empty file system. -/
def env0 : Env := ⟨[], fun _ => none, fun _ => false, fun _ => none⟩

/-- An environment knowing the effect `matrix` and the color `red`. -/
def env1 : Env :=
  ⟨["matrix"], fun c => if c = "red" then some 1 else none,
   fun _ => false, fun _ => none⟩

/-- A terminal/figlet context with an 80 by 24 terminal and a one-line
banner generator. -/
def ctx0 : Ctx := ⟨80, 24, fun t => t⟩

/-- An inline text node, as the tokenizer produces inside a paragraph. -/
def textChild (t : String) : AstNode := .mk "text" (some t) 0 [] "" ""

/-- A paragraph node holding one text child. -/
def paraNode (t : String) : AstNode := .mk "paragraph" none 0 [textChild t] "" ""

/-- A thematic-break node. -/
def tbNode : AstNode := .mk "thematic_break" none 0 [] "" ""

/-- A blank-line (newline) node. -/
def nlNode : AstNode := .mk "newline" none 0 [] "" ""

/-- A raw-markup (html) node carrying the given style text. -/
def htmlNode (t : String) : AstNode := .mk "block_html" (some t) 0 [] "" ""

/-- The slide built from a single buffered text element with no style
directive: all flags false, default colors. -/
def slideOf (t : String) : Slide :=
  { elements := [.text (textChild t)], has_style := false,
    has_effect := false, has_image := false, has_code := false,
    has_codio := false, style := [], effect := none,
    fg_color := 0, bg_color := 7 }

/-- The slide built from an effect-only style directive under `env1`: the
effect is active and the colors are the fixed override pair. -/
def effectSlide : Slide :=
  { elements := [.blockHtml (htmlNode "effect=matrix")], has_style := true,
    has_effect := true, has_image := false, has_code := false,
    has_codio := false, style := [("effect", "matrix")],
    effect := some "matrix", fg_color := 7, bg_color := 0 }

/-- The slide built from an empty element list: no flags, empty style,
default colors. -/
def emptySlide : Slide :=
  { elements := [], has_style := false, has_effect := false,
    has_image := false, has_code := false, has_codio := false,
    style := [], effect := none, fg_color := 0, bg_color := 7 }

/-- A codio line with only the progress flag set. -/
def progLine : CodioLine := { progress := true }

/-- A codio line with only a prompt. -/
def promptLine : CodioLine := { prompt := "hello" }

/-! ## Helper lemmas -/

/-- The five-way running maximum inside `Codio.width` is the running
maximum of the per-line candidate widths. -/
theorem width_foldl_eq (tw4 : Nat) :
    ∀ (lines : List CodioLine) (acc : Nat),
      lines.foldl
        (fun w l =>
          max (max (max (max w (magicWidth tw4 l)) l.prompt.length)
                   (l.inp.length + spaceCount l.inp))
              (l.out.length + spaceCount l.out))
        acc
      = lines.foldl (fun w l => max w (lineCandidate tw4 l)) acc := by
  intro lines
  induction lines with
  | nil => intro acc; rfl
  | cons l ls ih =>
    intro acc
    simp only [List.foldl_cons]
    rw [ih]
    congr 1
    simp [lineCandidate, Nat.max_assoc]

/-- Counting fold of `Codio.size`: folding plus-one-if over a list adds
the filtered length to the accumulator. -/
theorem size_foldl_eq :
    ∀ (lines : List CodioLine) (acc : Nat),
      lines.foldl (fun n l => if l.inp ≠ "" ∧ l.out ≠ "" then n + 1 else n) acc
      = acc + (lines.filter (fun l => decide (l.inp ≠ "" ∧ l.out ≠ ""))).length := by
  intro lines
  induction lines with
  | nil => intro acc; simp
  | cons l ls ih =>
    intro acc
    simp only [List.foldl_cons, List.filter_cons]
    by_cases h : l.inp ≠ "" ∧ l.out ≠ ""
    · simp only [if_pos h, h, decide_True, decide_eq_true_eq]
      rw [ih]
      simp [h]
      omega
    · simp only [if_neg h]
      rw [ih]
      simp [h]

/-- `splitlinesAux` never produces the empty list. -/
theorem splitlinesAux_ne_nil : ∀ (cs cur : List Char), splitlinesAux cur cs ≠ [] := by
  intro cs
  induction cs with
  | nil => intro cur; simp [splitlinesAux]
  | cons c rest ih =>
    intro cur
    by_cases hc : c = '\n'
    · subst hc
      cases rest with
      | nil => simp [splitlinesAux]
      | cons d ds => simp [splitlinesAux]
    · have heq : splitlinesAux cur (c :: rest) = splitlinesAux (c :: cur) rest := by
        cases rest with
        | nil => simp [splitlinesAux, hc]
        | cons d ds => simp [splitlinesAux, hc]
      rw [heq]; exact ih _

/-- A string splits into no lines exactly when it is empty. -/
theorem splitlines_eq_nil_iff (s : String) : splitlines s = [] ↔ s = "" := by
  obtain ⟨data⟩ := s
  cases data with
  | nil => simp [splitlines]
  | cons c cs =>
    constructor
    · intro h
      exfalso
      unfold splitlines at h
      simp only at h
      exact splitlinesAux_ne_nil (c :: cs) [] (List.map_eq_nil_iff.mp h)
    · intro h
      have hdata : (c :: cs) = ([] : List Char) := congrArg String.data h
      exact absurd hdata (by simp)

/-- The length of a left-justified string is the maximum of its length and
the requested width. -/
theorem ljust_length (s : String) (n : Nat) :
    (ljust s n).length = max s.length n := by
  unfold ljust
  rw [String.length_append]
  have hrep : (String.mk (List.replicate (n - s.length) ' ')).length
      = n - s.length := by
    show (List.replicate (n - s.length) ' ').length = n - s.length
    simp
  rw [hrep]
  omega

/-- The length of a run of spaces. -/
theorem spaces_length (n : Nat) : (spaces n).length = n := by
  show (List.replicate n ' ').length = n
  simp

/-- A maximum fold over line lengths bounds every line length and the
starting accumulator. -/
theorem foldl_max_length_bounds :
    ∀ (ls : List String) (a : Nat),
      a ≤ ls.foldl (fun m x => max m x.length) a
      ∧ ∀ x ∈ ls, x.length ≤ ls.foldl (fun m x => max m x.length) a := by
  intro ls
  induction ls with
  | nil => intro a; simp
  | cons y ys ih =>
    intro a
    simp only [List.foldl_cons]
    refine ⟨le_trans (Nat.le_max_left a y.length) (ih (max a y.length)).1, ?_⟩
    intro x hx
    cases hx with
    | head =>
      exact le_trans (Nat.le_max_right a y.length) (ih (max a y.length)).1
    | tail _ hmem => exact (ih (max a y.length)).2 x hmem

/-- The element scan of `Slide.__init__`, characterized: when every html
element carries its text, the monadic fold succeeds and computes the four
membership flags as disjunctions over the elements and the style as the
fold of the style updates. -/
theorem scan_foldlM_eq :
    ∀ (es : List Element) (hs : Bool) (sty : List (String × String))
      (hi hc hco : Bool),
      (∀ n, Element.blockHtml n ∈ es → n.text.isSome = true) →
      es.foldlM scanStep (hs, sty, hi, hc, hco)
        = .ok (hs || hasStyleB es,
               es.foldl (fun st e =>
                 match e with
                 | .blockHtml n => parseStyle (n.text.getD "")
                 | _ => st) sty,
               hi || hasImageB es, hc || hasCodeB es, hco || hasCodioB es) := by
  intro es
  induction es with
  | nil =>
    intro hs sty hi hc hco _
    simp [hasStyleB, hasImageB, hasCodeB, hasCodioB, pure, Except.pure]
  | cons e es ih =>
    intro hs sty hi hc hco h
    have hrest : ∀ n, Element.blockHtml n ∈ es → n.text.isSome = true :=
      fun n hn => h n (List.mem_cons_of_mem _ hn)
    cases e with
    | blockHtml n =>
      obtain ⟨t, ht⟩ :=
        Option.isSome_iff_exists.mp (h n (List.mem_cons_self _ _))
      simp only [List.foldlM_cons, scanStep, ht, Bind.bind, Except.bind]
      rw [ih _ _ _ _ _ hrest]
      simp [hasStyleB, hasImageB, hasCodeB, hasCodioB, Element.type, ht,
            List.any_cons]
    | heading n =>
      simp only [List.foldlM_cons, scanStep, Bind.bind, Except.bind]
      rw [ih _ _ _ _ _ hrest]
      simp [hasStyleB, hasImageB, hasCodeB, hasCodioB, Element.type,
            List.any_cons]
    | text n =>
      simp only [List.foldlM_cons, scanStep, Bind.bind, Except.bind]
      rw [ih _ _ _ _ _ hrest]
      simp [hasStyleB, hasImageB, hasCodeB, hasCodioB, Element.type,
            List.any_cons]
    | list n =>
      simp only [List.foldlM_cons, scanStep, Bind.bind, Except.bind]
      rw [ih _ _ _ _ _ hrest]
      simp [hasStyleB, hasImageB, hasCodeB, hasCodioB, Element.type,
            List.any_cons]
    | blockCode n =>
      simp only [List.foldlM_cons, scanStep, Bind.bind, Except.bind]
      rw [ih _ _ _ _ _ hrest]
      simp [hasStyleB, hasImageB, hasCodeB, hasCodioB, Element.type,
            List.any_cons]
    | codio sc =>
      simp only [List.foldlM_cons, scanStep, Bind.bind, Except.bind]
      rw [ih _ _ _ _ _ hrest]
      simp [hasStyleB, hasImageB, hasCodeB, hasCodioB, Element.type,
            List.any_cons]
    | codioNode n =>
      simp only [List.foldlM_cons, scanStep, Bind.bind, Except.bind]
      rw [ih _ _ _ _ _ hrest]
      simp [hasStyleB, hasImageB, hasCodeB, hasCodioB, Element.type,
            List.any_cons]
    | image n =>
      simp only [List.foldlM_cons, scanStep, Bind.bind, Except.bind]
      rw [ih _ _ _ _ _ hrest]
      simp [hasStyleB, hasImageB, hasCodeB, hasCodioB, Element.type,
            List.any_cons]

/-- `scanElems` in terms of the spec-side flag and style functions. -/
theorem scanElems_eq (es : List Element)
    (h : ∀ n, Element.blockHtml n ∈ es → n.text.isSome = true) :
    scanElems es
      = .ok (hasStyleB es, styleB es, hasImageB es, hasCodeB es,
             hasCodioB es) := by
  have hfold := scan_foldlM_eq es false [] false false false h
  simpa [scanElems, styleB] using hfold

/-! ## Claims -/

/-- C4: for every CodioScript the session width is 4 plus the maximum over
all CodioLines of the candidate width — the maximum of one quarter of the
terminal column width when the progress flag is set (else 0), the prompt
length, the input length plus its space count, and the output length plus
its space count; and with terminal width 80 a progress line contributes a
magic-width candidate of 20. -/
theorem codio_width_spec :
    (∀ (tw : Nat) (s : CodioScript),
      Codio.width tw s
        = 4 + (s.lines.map (lineCandidate (tw / 4))).foldl max 0)
    ∧ (∀ l : CodioLine, l.progress = true → magicWidth (80 / 4) l = 20) := by
  constructor
  · intro tw s
    unfold Codio.width
    rw [width_foldl_eq, List.foldl_map, Nat.add_comm]
  · intro l h
    simp [magicWidth, h]

/-- C4 witness: a concrete progress line under terminal width 80. -/
theorem codio_width_spec_witness :
    progLine.progress = true ∧ magicWidth (80 / 4) progLine = 20 :=
  ⟨rfl, codio_width_spec.2 progLine rfl⟩

/-- C5: for every CodioScript, the Codio footprint equals the number of
lines plus 2, plus one extra unit for every line with both a non-empty
input and a non-empty output. -/
theorem codio_size_spec (s : CodioScript) :
    Codio.size s
      = s.lines.length + 2
        + (s.lines.filter (fun l => decide (l.inp ≠ "" ∧ l.out ≠ ""))).length := by
  unfold Codio.size
  rw [size_foldl_eq]
  omega

/-- C6: for every CodioLine without the progress flag whose prompt is
non-empty and whose input and output are both empty, frame generation
emits exactly one frame for it, whose output field is the prompt text and
whose prompt field is the empty string; in a script consisting of that
line alone, `Codio.render` is exactly that one frame. -/
theorem codio_prompt_only_frame (w tw sp : Nat) (l : CodioLine)
    (hp : l.progress = false) (h1 : l.prompt ≠ "") (h2 : l.inp = "")
    (h3 : l.out = "") :
    renderFrame w l
      = some { prompt := "", inp := "", out := l.prompt, color := l.color,
               bold := l.bold, underline := l.underline, styled := true }
    ∧ Codio.render tw { speed := sp, lines := [l] }
      = [{ prompt := "", inp := "", out := l.prompt, color := l.color,
           bold := l.bold, underline := l.underline, styled := true }] := by
  have hframe : renderFrame w l
      = some { prompt := "", inp := "", out := l.prompt, color := l.color,
               bold := l.bold, underline := l.underline, styled := true } := by
    unfold renderFrame
    rw [if_neg (by simp [hp])]
    rw [if_neg (by simp [h1])]
    rw [if_pos ⟨h1, h2, h3⟩]
    rw [h2]
  refine ⟨hframe, ?_⟩
  have hframe2 : renderFrame (Codio.width tw { speed := sp, lines := [l] }) l
      = some { prompt := "", inp := "", out := l.prompt, color := l.color,
               bold := l.bold, underline := l.underline, styled := true } := by
    unfold renderFrame
    rw [if_neg (by simp [hp])]
    rw [if_neg (by simp [h1])]
    rw [if_pos ⟨h1, h2, h3⟩]
    rw [h2]
  simp [Codio.render, List.filterMap, hframe2]

/-- C7: for a code block whose stored text has the source lines
`l :: ls` (at least one line) with maximum line length `L`: `size` is
exactly the number of source lines; the padded row list is one all-space
border row of width `L + 2`, the source lines each left-justified to
width `L + 1` and prefixed with one space, and one more border row —
`N + 2` rows in total, every content row and border row of width `L + 2`;
and `render` is exactly those rows joined with newlines. -/
theorem blockcode_size_render_spec (s l : String) (ls : List String) (L : Nat)
    (hsplit : splitlines s = l :: ls)
    (hL : L = ls.foldl (fun m x => max m x.length) l.length) :
    BlockCode.size s = (l :: ls).length
    ∧ BlockCode.padRows s
      = some (spaces (L + 2)
              :: ((l :: ls).map (fun x => " " ++ ljust x (L + 1))
                  ++ [spaces (L + 2)]))
    ∧ (spaces (L + 2)
        :: ((l :: ls).map (fun x => " " ++ ljust x (L + 1))
            ++ [spaces (L + 2)])).length = (l :: ls).length + 2
    ∧ (∀ x ∈ l :: ls, (" " ++ ljust x (L + 1)).length = L + 2)
    ∧ (spaces (L + 2)).length = L + 2
    ∧ BlockCode.render s = (BlockCode.padRows s).map joinNL := by
  have hbound : ∀ x ∈ l :: ls, x.length ≤ L := by
    intro x hx
    cases hx with
    | head =>
      rw [hL]
      exact (foldl_max_length_bounds ls l.length).1
    | tail _ hmem =>
      rw [hL]
      exact (foldl_max_length_bounds ls l.length).2 x hmem
  refine ⟨?_, ?_, ?_, ?_, spaces_length (L + 2), rfl⟩
  · unfold BlockCode.size
    rw [hsplit]
  · unfold BlockCode.padRows
    rw [hsplit]
    simp only
    rw [← hL]
  · simp
  · intro x hx
    rw [String.length_append, ljust_length]
    have hx' := hbound x hx
    have hone : (" " : String).length = 1 := rfl
    rw [hone]
    omega

/-- C7 witness: the two-line code text with lines of length 2 and 1. -/
theorem blockcode_size_render_spec_witness :
    BlockCode.size "ab\nc" = 2
    ∧ BlockCode.padRows "ab\nc"
      = some (spaces 4
              :: ((["ab", "c"].map (fun x => " " ++ ljust x 3))
                  ++ [spaces 4])) := by
  have h := blockcode_size_render_spec "ab\nc" "ab" ["c"] 2 (by decide) (by decide)
  exact ⟨h.1, h.2.1⟩

/-- C10: a code block whose stored text contains no lines — the empty
string, the only such text — has `size` 0, while `render` fails (the
Python maximum of line lengths is taken over an empty sequence); `render`
succeeds exactly when the text has at least one line. -/
theorem blockcode_empty_text_spec :
    BlockCode.size "" = 0
    ∧ BlockCode.render "" = none
    ∧ (∀ s : String, splitlines s = [] ↔ s = "")
    ∧ (∀ s : String, (BlockCode.render s).isSome = true ↔ splitlines s ≠ []) := by
  refine ⟨rfl, rfl, splitlines_eq_nil_iff, ?_⟩
  intro s
  unfold BlockCode.render BlockCode.pad BlockCode.padRows
  cases hs : splitlines s with
  | nil => simp [hs]
  | cons l ls => simp [hs]

/-- C10 witness: a one-character text renders successfully. -/
theorem blockcode_empty_text_spec_witness :
    (BlockCode.render "x").isSome = true :=
  (blockcode_empty_text_spec.2.2.2 "x").mpr (by decide)

/-- C1 counterexample: the claim fails as stated — in this document the
final buffer is non-empty at end of document (it holds the text element of
the paragraph), yet no trailing slide is produced, because the final AST
node is a newline node, whose `continue` skips the last-node flush check.
-/
theorem parse_trailing_newline_drops_buffer :
    parse env0 [paraNode "hi", nlNode] = .ok [] := rfl

/-- C1 (amended): a thematic-break node flushes the current non-empty
buffer into a new Slide and resets the buffer; processing a final
non-newline, non-break node (here: a text node) flushes the buffer,
extended with its element, into a trailing Slide even without a closing
thematic break; and a document with content before each of two thematic
breaks plus trailing content yields exactly 3 slides. -/
theorem parse_slide_flushing_spec :
    (∀ (env : Env) (rest : List AstNode) (i total sliden : Nat)
       (buffer : List Element) (slides : List Slide),
      buffer ≠ [] →
      parseGo env (tbNode :: rest) i total sliden buffer slides
        = (mkSlide env buffer).bind
            (fun s => parseGo env rest (i + 1) total (sliden + 1) [] (slides ++ [s])))
    ∧ (∀ (env : Env) (t : String) (i sliden : Nat)
         (buffer : List Element) (slides : List Slide),
        parseGo env [textChild t] i (i + 1) sliden buffer slides
          = (mkSlide env (buffer ++ [.text (textChild t)])).map
              (fun s => slides ++ [s]))
    ∧ (∀ (env : Env) (t1 t2 t3 : String),
        parse env [paraNode t1, tbNode, paraNode t2, tbNode, paraNode t3]
          = .ok [slideOf t1, slideOf t2, slideOf t3]) := by
  refine ⟨?_, ?_, ?_⟩
  · intro env rest i total sliden buffer slides hb
    cases buffer with
    | nil => exact absurd rfl hb
    | cons e es =>
      simp only [parseGo, tbNode, AstNode.ntype]
      rw [if_neg (by decide)]
      rw [if_pos (by simp)]
      cases hms : mkSlide env (e :: es) with
      | error err => simp [Except.bind]
      | ok s => simp [Except.bind]
  · intro env t i sliden buffer slides
    simp only [parseGo, textChild, AstNode.ntype]
    rw [if_neg (by decide)]
    rw [if_neg (by simp)]
    rw [if_neg (by decide)]  -- not a paragraph
    have hdisp : dispatchTop env sliden (AstNode.mk "text" (some t) 0 [] "" "")
        = .ok (.text (AstNode.mk "text" (some t) 0 [] "" "")) := rfl
    rw [hdisp]
    simp only [Except.map, Nat.add_sub_cancel, if_pos rfl]
    cases hms : mkSlide env (buffer ++ [.text (AstNode.mk "text" (some t) 0 [] "" "")]) with
    | error err => simp [parseGo]
    | ok s => simp [parseGo]
  · intro env t1 t2 t3
    rfl

/-- C1 witness: the break-flush equation instantiated at a singleton
buffer. -/
theorem parse_slide_flushing_spec_witness :
    parseGo env0 [tbNode] 0 2 0 [Element.text (textChild "hi")] []
      = (mkSlide env0 [Element.text (textChild "hi")]).bind
          (fun s => parseGo env0 [] 1 2 1 [] ([] ++ [s])) :=
  parse_slide_flushing_spec.1 env0 [] 0 2 0 _ [] (by simp)

/-- C2 counterexample: the claim fails as stated — `size` of a RawMarkup
(BlockHtml) element raises `NotImplementedError` for every fragment
(source lines 216-218), so it is not a total non-negative integer. -/
theorem sizeE_blockhtml_fails :
    sizeE ctx0 (Element.blockHtml (htmlNode "fg=red"))
      = .error PErr.notImplemented := rfl

/-- C2 (amended): for every element variant except RawMarkup — Heading on
fragments whose first child carries text when the level is 1, Text, List,
CodeBlock on fragments carrying their text, Codio on parsed scripts, and
Image — `size` returns a natural number (hence non-negative) without
failing; it is a pure function of the stored fragment and the terminal
context, so its value is independent of whether `render` has been called;
RawMarkup (BlockHtml) `size` always fails. -/
theorem sizeE_total_spec :
    (∀ (ctx : Ctx) (n : AstNode),
      (n.level = 1 → headingShape n = true) →
      (sizeE ctx (.heading n)).isOk = true)
    ∧ (∀ (ctx : Ctx) (n : AstNode), sizeE ctx (.text n) = .ok 1)
    ∧ (∀ (ctx : Ctx) (n : AstNode), (sizeE ctx (.list n)).isOk = true)
    ∧ (∀ (ctx : Ctx) (n : AstNode) (t : String),
        n.text = some t → (sizeE ctx (.blockCode n)).isOk = true)
    ∧ (∀ (ctx : Ctx) (s : CodioScript), (sizeE ctx (.codio s)).isOk = true)
    ∧ (∀ (ctx : Ctx) (n : AstNode), (sizeE ctx (.image n)).isOk = true)
    ∧ (∀ (ctx : Ctx) (n : AstNode), (sizeE ctx (.blockHtml n)).isOk = false) := by
  refine ⟨?_, fun _ _ => rfl, fun _ _ => rfl, ?_, fun _ _ => rfl,
          fun _ _ => rfl, fun _ _ => rfl⟩
  · intro ctx n h
    simp only [sizeE, headingSize]
    by_cases h1 : n.level = 1
    · have hshape := h h1
      rw [if_pos h1]
      unfold headingShape at hshape
      cases hc : n.children with
      | nil =>
        rw [hc] at hshape
        simp at hshape
      | cons c cs =>
        rw [hc] at hshape
        have hsome : c.text.isSome = true := hshape
        obtain ⟨t, ht⟩ := Option.isSome_iff_exists.mp hsome
        simp [ht, Except.isOk, Except.toBool]
    · rw [if_neg h1]
      by_cases h2 : n.level = 2
      · rw [if_pos h2]; rfl
      · rw [if_neg h2]; rfl
  · intro ctx n t h
    simp only [sizeE, h]
    rfl

/-- C2 witness: a level-1 heading with a text child and a code block with
text both size successfully. -/
theorem sizeE_total_spec_witness :
    (sizeE ctx0 (Element.heading (AstNode.mk "heading" none 1 [textChild "T"] "" ""))).isOk = true
    ∧ (sizeE ctx0 (Element.blockCode (textChild "code"))).isOk = true :=
  ⟨sizeE_total_spec.1 ctx0 _ (fun _ => by decide),
   sizeE_total_spec.2.2.2.1 ctx0 _ "code" rfl⟩

/-- C6 witness: the concrete prompt-only line. -/
theorem codio_prompt_only_frame_witness :
    renderFrame 10 promptLine
      = some { prompt := "", inp := "", out := "hello", color := none,
               bold := none, underline := none, styled := true }
    ∧ Codio.render 80 { speed := 1, lines := [promptLine] }
      = [{ prompt := "", inp := "", out := "hello", color := none,
           bold := none, underline := none, styled := true }] :=
  codio_prompt_only_frame 10 80 1 promptLine rfl (by decide) rfl rfl

/-- C8: for a slide under construction whose style directive is valid
(every html element carries its text, a named effect is in the registry
and named colors are in the color map), construction fails with one of
the two `IncompatibleStyle` errors if and only if an effect is active and
either an explicit foreground or background color is also set, or the
slide contains a code-block element. -/
theorem slide_incompatible_style_spec (env : Env) (elements : List Element)
    (hhtml : ∀ n, Element.blockHtml n ∈ elements → n.text.isSome = true)
    (heff : ∀ eff, dictGet (styleB elements) "effect" = some eff →
      eff ∈ env.effects)
    (hfg : ∀ c, dictGet (styleB elements) "fg" = some c →
      (env.colormap c).isSome = true)
    (hbg : ∀ c, dictGet (styleB elements) "bg" = some c →
      (env.colormap c).isSome = true) :
    isIncompatibleFailure (mkSlide env elements) = true
      ↔ ((dictGet (styleB elements) "effect").isSome = true
         ∧ ((dictGet (styleB elements) "fg").isSome = true
            ∨ (dictGet (styleB elements) "bg").isSome = true
            ∨ hasCodeB elements = true)) := by
  unfold mkSlide
  rw [scanElems_eq elements hhtml]
  cases hEff : dictGet (styleB elements) "effect" with
  | none =>
    simp only [resolveEffect, hEff]
    cases hFg : dictGet (styleB elements) "fg" with
    | none =>
      cases hBg : dictGet (styleB elements) "bg" with
      | none =>
        simp [resolveColor, hFg, hBg, isIncompatibleFailure]
      | some cb =>
        obtain ⟨vb, hvb⟩ := Option.isSome_iff_exists.mp (hbg cb hBg)
        simp [resolveColor, hFg, hBg, hvb, isIncompatibleFailure]
    | some cf =>
      obtain ⟨vf, hvf⟩ := Option.isSome_iff_exists.mp (hfg cf hFg)
      cases hBg : dictGet (styleB elements) "bg" with
      | none =>
        simp [resolveColor, hFg, hBg, hvf, isIncompatibleFailure]
      | some cb =>
        obtain ⟨vb, hvb⟩ := Option.isSome_iff_exists.mp (hbg cb hBg)
        simp [resolveColor, hFg, hBg, hvf, hvb, isIncompatibleFailure]
  | some eff =>
    have hmem := heff eff hEff
    simp only [resolveEffect, hEff, if_pos hmem]
    cases hFg : dictGet (styleB elements) "fg" with
    | none =>
      cases hBg : dictGet (styleB elements) "bg" with
      | none =>
        cases hCode : hasCodeB elements with
        | false =>
          simp [resolveColor, hFg, hBg, hCode, isIncompatibleFailure]
        | true =>
          simp [resolveColor, hFg, hBg, hCode, isIncompatibleFailure,
                PErr.isIncompatibleStyle]
      | some cb =>
        obtain ⟨vb, hvb⟩ := Option.isSome_iff_exists.mp (hbg cb hBg)
        simp [resolveColor, hFg, hBg, hvb, isIncompatibleFailure,
              PErr.isIncompatibleStyle]
    | some cf =>
      obtain ⟨vf, hvf⟩ := Option.isSome_iff_exists.mp (hfg cf hFg)
      cases hBg : dictGet (styleB elements) "bg" with
      | none =>
        simp [resolveColor, hFg, hBg, hvf, isIncompatibleFailure,
              PErr.isIncompatibleStyle]
      | some cb =>
        obtain ⟨vb, hvb⟩ := Option.isSome_iff_exists.mp (hbg cb hBg)
        simp [resolveColor, hFg, hBg, hvf, hvb, isIncompatibleFailure,
              PErr.isIncompatibleStyle]

/-- C8 witness: an active effect combined with a code-block element under
the registry knowing the effect — construction fails with
`IncompatibleStyle`. -/
theorem slide_incompatible_style_spec_witness :
    isIncompatibleFailure
      (mkSlide env1 [Element.blockHtml (htmlNode "effect=matrix"),
                     Element.blockCode (textChild "x")]) = true := by
  refine (slide_incompatible_style_spec env1
    [Element.blockHtml (htmlNode "effect=matrix"),
     Element.blockCode (textChild "x")] ?_ ?_ ?_ ?_).mpr (by decide)
  · intro n hn
    simp only [List.mem_cons, List.not_mem_nil, or_false] at hn
    rcases hn with h | h
    · cases h; rfl
    · cases h
  · intro eff heq
    have hval : dictGet
        (styleB [Element.blockHtml (htmlNode "effect=matrix"),
                 Element.blockCode (textChild "x")]) "effect"
        = some "matrix" := rfl
    rw [hval] at heq
    injection heq with h
    rw [← h]
    decide
  · intro c heq
    have hval : dictGet
        (styleB [Element.blockHtml (htmlNode "effect=matrix"),
                 Element.blockCode (textChild "x")]) "fg"
        = none := rfl
    rw [hval] at heq
    exact Option.noConfusion heq
  · intro c heq
    have hval : dictGet
        (styleB [Element.blockHtml (htmlNode "effect=matrix"),
                 Element.blockCode (textChild "x")]) "bg"
        = none := rfl
    rw [hval] at heq
    exact Option.noConfusion heq

/-- C9 counterexample: the claim fails as stated — this successfully
constructed slide has a style directive that sets no fg and no bg, yet its
resolved foreground index is 7, not 0 (and its background 0, not 7),
because the active effect forces the override pair. -/
theorem slide_effect_overrides_defaults :
    mkSlide env1 [Element.blockHtml (htmlNode "effect=matrix")]
      = .ok effectSlide
    ∧ dictGet effectSlide.style "fg" = none
    ∧ dictGet effectSlide.style "bg" = none
    ∧ effectSlide.fg_color = 7
    ∧ effectSlide.bg_color = 0 := ⟨rfl, rfl, rfl, rfl, rfl⟩

/-- C9 (amended): for every successfully constructed Slide, if an effect
is active the foreground and background are forced to the fixed override
pair 7 and 0 regardless of any unset defaults; and if no effect is active,
an unset foreground resolves to the default index 0 and an unset
background to the default index 7. -/
theorem slide_color_defaults_spec (env : Env) (elements : List Element)
    (s : Slide) (h : mkSlide env elements = .ok s) :
    (s.has_effect = true → s.fg_color = 7 ∧ s.bg_color = 0)
    ∧ (s.has_effect = false →
        (dictGet s.style "fg" = none → s.fg_color = 0)
        ∧ (dictGet s.style "bg" = none → s.bg_color = 7)) := by
  unfold mkSlide at h
  cases hscan : scanElems elements with
  | error e => rw [hscan] at h; cases h
  | ok res =>
    obtain ⟨hs, sty, hi, hc, hco⟩ := res
    rw [hscan] at h
    dsimp only at h
    cases hre : resolveEffect env sty with
    | error e => rw [hre] at h; cases h
    | ok effres =>
      obtain ⟨hasEff, eff⟩ := effres
      rw [hre] at h
      dsimp only at h
      cases hrf : resolveColor env sty "fg" 0 with
      | error e => rw [hrf] at h; cases h
      | ok fg =>
        rw [hrf] at h
        dsimp only at h
        cases hrb : resolveColor env sty "bg" 7 with
        | error e => rw [hrb] at h; cases h
        | ok bg =>
          rw [hrb] at h
          dsimp only at h
          split at h
          · cases h
          · split at h
            · cases h
            · injection h with h
              subst h
              refine ⟨?_, ?_⟩
              · intro hEffTrue
                simp only at hEffTrue
                simp [hEffTrue]
              · intro hEffFalse
                simp only at hEffFalse
                constructor
                · intro hnone
                  simp only at hnone
                  unfold resolveColor at hrf
                  rw [hnone] at hrf
                  injection hrf with hval
                  simp [hEffFalse, ← hval]
                · intro hnone
                  simp only at hnone
                  unfold resolveColor at hrb
                  rw [hnone] at hrb
                  injection hrb with hval
                  simp [hEffFalse, ← hval]

/-- C9 witness: a slide with no style directive resolves to the default
color pair. -/
theorem slide_color_defaults_spec_witness :
    emptySlide.fg_color = 0 ∧ emptySlide.bg_color = 7 := by
  have h := slide_color_defaults_spec env0 [] emptySlide rfl
  exact ⟨(h.2 rfl).1 rfl, (h.2 rfl).2 rfl⟩

end Present
